import Mathlib

/-!
Verification of the OpenSSH-style config parser/resolver
(`asyncssh/config.py`) as a shallow embedding in Lean 4.

The embedding translates `SSHConfig` / `SSHClientConfig` from the source.
External collaborators that are not part of the parser file (pattern
matchers, `glob`, `socket.gethostname`, `sha1`, `os` facilities, the
subprocess executor and the default port constant) are passed in as an
explicit `Externals` record, mirroring the spec's description of them as
injected capabilities.  Python's `shlex.split` (stdlib) is modelled by
`shlexSplit` below, following POSIX shell word-splitting.
-/

namespace SSHConf

/-- Errors raised during parsing.  `SSHConfig._error` formats
`'%s line %s: %s' % (path, line_no, reason)`; we keep the three fields
structured in the `located` constructor.  Errors raised without going
through `_error` (token substitution, crashes) are `bare`. -/
inductive ConfigError where
  | located (path : String) (lineNo : Nat) (reason : String)
  | bare (reason : String)
deriving Repr, DecidableEq

/-- Rendering of a located error, matching `SSHConfig._error`'s format
string `'%s line %s: %s'`. -/
def renderError : ConfigError → String
  | .located path lineNo reason => path ++ " line " ++ toString lineNo ++ ": " ++ reason
  | .bare reason => reason

/-- `socket.AF_UNSPEC` / `AF_INET` / `AF_INET6` as used by
`SSHConfig._set_address_family`. -/
inductive AddressFamily where
  | unspec | inet | inet6
deriving Repr, DecidableEq

/-- One component of the rekey-limit pair: the `()` sentinel
("unspecified"), Python `None`, or a string. -/
inductive RekeyVal where
  | unspecified | null | str (s : String)
deriving Repr, DecidableEq

/-- The union of value shapes stored in the options dictionary. -/
inductive ConfigValue where
  | bool (b : Bool)
  | int (n : Int)
  | str (s : String)
  | null
  | list (xs : List String)
  | addrFamily (af : AddressFamily)
  | rekey (byteLimit timeLimit : RekeyVal)
deriving Repr, DecidableEq

/-- Association-list lookup (Python `dict` read). -/
def alGet {α β : Type} [DecidableEq α] : List (α × β) → α → Option β
  | [], _ => none
  | (k0, v0) :: rest, k => if k0 = k then some v0 else alGet rest k

/-- Association-list store (Python `dict` write: replace in place when the
key exists, append otherwise). -/
def alSet {α β : Type} [DecidableEq α] : List (α × β) → α → β → List (α × β)
  | [], k, v => [(k, v)]
  | (k0, v0) :: rest, k, v =>
      if k0 = k then (k, v) :: rest else (k0, v0) :: alSet rest k v

/-- The options dictionary (`self._options`). -/
abbrev Options := List (String × ConfigValue)

/-- The percent-expansion token dictionary (`self._tokens`); keys are the
single-character token names plus the literal percent key. -/
abbrev Tokens := List (Char × String)

/-- The mutable parser state carried by an `SSHConfig` instance during one
`parse` pass: `_path`, `_line_no`, `_matching`, `_options`, `_tokens`. -/
structure ConfigState where
  path : String
  lineNo : Nat
  matching : Bool
  options : Options
  tokens : Tokens
deriving Repr, DecidableEq

/-- Client-variant construction context (`SSHClientConfig.__init__`):
`_local_user` and `_orig_host`. -/
structure ClientCtx where
  localUser : String
  origHost : String

/-- External collaborators of the parser file, injected as functions:
`WildcardPatternList(...).matches`, `HostPatternList` address matching,
`_exec`, the `Path`/`glob` pipeline of `_include`, `socket.gethostname()`,
`os.path.expanduser` home resolution, `os.getuid` availability, `sha1`
hex digesting, and `DEFAULT_PORT` from `constants.py`. -/
structure Externals where
  wildMatch : String → String → Bool
  addrMatch : String → String → Bool
  exec : String → Bool
  glob : String → List String
  localHost : String
  home : Option String
  uid : Option Nat
  sha1hex : String → String
  defaultPort : Int

/-- `SSHConfig._error`: a `ConfigParseError` carrying the current path
and 1-based line number. -/
def errAt (st : ConfigState) (reason : String) : ConfigError :=
  .located st.path st.lineNo reason

/- ### String utilities.  The configuration data is ASCII; these model the
Python string methods used by the parser (`str.lower`, `str.strip`,
`str.startswith`, `str.endswith`, `str.split('=', 1)`) by structural
recursion over the character list. -/

/-- `str.lower` (ASCII range). -/
def lowerCh (c : Char) : Char :=
  if 'A' ≤ c ∧ c ≤ 'Z' then Char.ofNat (c.toNat + 32) else c

def pyLower (s : String) : String := String.mk (s.data.map lowerCh)

/-- `str.strip` whitespace: space, tab, newline, carriage return,
vertical tab, form feed. -/
def pySpace (c : Char) : Bool :=
  c = ' ' ∨ c = Char.ofNat 9 ∨ c = Char.ofNat 10 ∨ c = Char.ofNat 13 ∨
  c = Char.ofNat 11 ∨ c = Char.ofNat 12

def pyStrip (s : String) : String :=
  String.mk (((s.data.dropWhile pySpace).reverse.dropWhile pySpace).reverse)

/-- `s.startswith(c)` for a single character. -/
def startsWithCh (s : String) (c : Char) : Bool :=
  match s.data with
  | [] => false
  | c0 :: _ => c0 = c

/-- `s.endswith(c)` for a single character. -/
def endsWithCh (s : String) (c : Char) : Bool :=
  match s.data.reverse with
  | [] => false
  | c0 :: _ => c0 = c

def splitFirstEqAux : List Char → List Char → Option (String × String)
  | [], _ => none
  | c :: rest, acc =>
      if c = '=' then some (String.mk acc.reverse, String.mk rest)
      else splitFirstEqAux rest (c :: acc)

/-- Python `option.split('=', 1)` when an equals sign is present
(`none` when there is no equals sign). -/
def splitFirstEq (s : String) : Option (String × String) :=
  splitFirstEqAux s.data []

/- ### Tokenizer: model of Python `shlex.split` (POSIX mode,
whitespace-split), used by `SSHConfig.parse`.  Characters are written via
`Char.ofNat` to keep quote characters out of literals. -/

def squote : Char := Char.ofNat 39
def dquote : Char := Char.ofNat 34
def bslash : Char := Char.ofNat 92

/-- `shlex.whitespace` is space, tab, carriage return, newline. -/
def shlexWs (c : Char) : Bool :=
  c = ' ' ∨ c = Char.ofNat 9 ∨ c = Char.ofNat 13 ∨ c = Char.ofNat 10

/-- Lexer mode: outside quotes, inside single quotes, inside double
quotes. -/
inductive LexMode where
  | norm | insingle | indouble
deriving Repr, DecidableEq

/-- Word-splitting state machine.  `cur` is the token being accumulated
(reversed), `started` records whether a token is in progress (so quoted
empty strings yield a token).  Errors carry the `ValueError` message. -/
def shlexAux : List Char → LexMode → List Char → Bool → Except String (List String)
  | [], .norm, cur, started =>
      if started then .ok [String.mk cur.reverse] else .ok []
  | [], .insingle, _, _ => .error "No closing quotation"
  | [], .indouble, _, _ => .error "No closing quotation"
  | c :: rest, .norm, cur, started =>
      if shlexWs c then
        if started then
          match shlexAux rest .norm [] false with
          | .ok ts => .ok (String.mk cur.reverse :: ts)
          | .error e => .error e
        else shlexAux rest .norm [] false
      else if c = squote then shlexAux rest .insingle cur true
      else if c = dquote then shlexAux rest .indouble cur true
      else if c = bslash then
        match rest with
        | [] => .error "No escaped character"
        | e :: rest2 => shlexAux rest2 .norm (e :: cur) true
      else shlexAux rest .norm (c :: cur) true
  | c :: rest, .insingle, cur, _ =>
      if c = squote then shlexAux rest .norm cur true
      else shlexAux rest .insingle (c :: cur) true
  | c :: rest, .indouble, cur, _ =>
      if c = dquote then shlexAux rest .norm cur true
      else if c = bslash then
        match rest with
        | [] => .error "No escaped character"
        | e :: rest2 =>
            if e = dquote ∨ e = bslash then
              shlexAux rest2 .indouble (e :: cur) true
            else shlexAux rest2 .indouble (e :: bslash :: cur) true
      else shlexAux rest .indouble (c :: cur) true

/-- `shlex.split(line)` (POSIX, whitespace-split, comments off). -/
def shlexSplit (line : String) : Except String (List String) :=
  shlexAux line.data .norm [] false

/-- Model of Python `int(s)`: optional surrounding whitespace, optional
sign, decimal digits (digit-group underscores are not modelled). -/
def digitsToNat (cs : List Char) : Option Nat :=
  if cs.isEmpty then none
  else cs.foldlM (fun acc c => if c.isDigit then some (acc * 10 + (c.toNat - 48)) else none) 0

def pyInt (s : String) : Option Int :=
  match (pyStrip s).data with
  | '-' :: rest => (digitsToNat rest).map (fun n => -(n : Int))
  | '+' :: rest => (digitsToNat rest).map (fun n => (n : Int))
  | cs => (digitsToNat cs).map (fun n => (n : Int))

/- ### Option value handlers (`SSHConfig._set_*` / `_append_*`).
Each takes the canonical `option` name and the argument list, returning
the new state together with the arguments left unconsumed (Python mutates
`args` in place; the parse loop raises `Extra data` if any are left). -/

/-- The `if option not in self._options: self._options[option] = value`
pattern shared by every first-wins setter. -/
def storeIfAbsent (st : ConfigState) (option : String) (v : ConfigValue) : ConfigState :=
  if (alGet st.options option).isSome then st
  else { st with options := alSet st.options option v }

abbrev HResult := Except ConfigError (ConfigState × List String)

/-- `SSHConfig._set_bool`. -/
def set_bool (st : ConfigState) (option : String) (args : List String) : HResult :=
  match args with
  | [] => .error (.bare "pop from empty list")
  | valueStr :: rest =>
      let v := pyLower valueStr
      if v = "yes" ∨ v = "true" then
        .ok (storeIfAbsent st option (.bool true), rest)
      else if v = "no" ∨ v = "false" then
        .ok (storeIfAbsent st option (.bool false), rest)
      else
        .error (errAt st ("Invalid " ++ option ++ " boolean value: " ++ v))

/-- `SSHConfig._set_int`. -/
def set_int (st : ConfigState) (option : String) (args : List String) : HResult :=
  match args with
  | [] => .error (.bare "pop from empty list")
  | valueStr :: rest =>
      match pyInt valueStr with
      | some n => .ok (storeIfAbsent st option (.int n), rest)
      | none =>
          .error (errAt st ("Invalid " ++ option ++ " integer value: " ++ valueStr))

/-- `SSHConfig._set_string`: literal `none` (case-insensitive) stores a
null value. -/
def set_string (st : ConfigState) (option : String) (args : List String) : HResult :=
  match args with
  | [] => .error (.bare "pop from empty list")
  | valueStr :: rest =>
      let value := if pyLower valueStr = "none" then ConfigValue.null
                   else .str valueStr
      .ok (storeIfAbsent st option value, rest)

/-- `SSHConfig._append_string`: appends to the stored list; a `none`
argument initializes an empty list only when the option is unset. -/
def append_string (st : ConfigState) (option : String) (args : List String) : HResult :=
  match args with
  | [] => .error (.bare "pop from empty list")
  | valueStr :: rest =>
      if pyLower valueStr ≠ "none" then
        match alGet st.options option with
        | some (.list xs) =>
            .ok ({ st with options := alSet st.options option (.list (xs ++ [valueStr])) }, rest)
        | some _ => .error (.bare "AttributeError: append on non-list")
        | none =>
            .ok ({ st with options := alSet st.options option (.list [valueStr]) }, rest)
      else
        .ok (storeIfAbsent st option (.list []), rest)

/-- `SSHConfig._set_string_list`: consumes all remaining words as the
value (first directive wins for the whole list). -/
def set_string_list (st : ConfigState) (option : String) (args : List String) : HResult :=
  .ok (storeIfAbsent st option (.list args), [])

/-- `SSHConfig._append_string_list`: extends the stored list with all
remaining words. -/
def append_string_list (st : ConfigState) (option : String) (args : List String) : HResult :=
  match alGet st.options option with
  | some (.list xs) =>
      .ok ({ st with options := alSet st.options option (.list (xs ++ args)) }, [])
  | some _ => .error (.bare "AttributeError: extend on non-list")
  | none => .ok ({ st with options := alSet st.options option (.list args) }, [])

/-- `SSHConfig._set_address_family`. -/
def set_address_family (st : ConfigState) (option : String) (args : List String) : HResult :=
  match args with
  | [] => .error (.bare "pop from empty list")
  | valueStr :: rest =>
      let v := pyLower valueStr
      if v = "any" then .ok (storeIfAbsent st option (.addrFamily .unspec), rest)
      else if v = "inet" then .ok (storeIfAbsent st option (.addrFamily .inet), rest)
      else if v = "inet6" then .ok (storeIfAbsent st option (.addrFamily .inet6), rest)
      else .error (errAt st ("Invalid " ++ option ++ " value: " ++ v))

/-- `SSHConfig._set_rekey_limits`: one or two tokens, both lowercased;
`default` byte limit and an absent time limit become the `()` sentinel,
a `none` time limit becomes Python `None`. -/
def set_rekey_limits (st : ConfigState) (option : String) (args : List String) : HResult :=
  match args with
  | [] => .error (.bare "pop from empty list")
  | b :: rest =>
      let byteLimit := if pyLower b = "default" then RekeyVal.unspecified
                       else .str (pyLower b)
      match rest with
      | t :: rest2 =>
          let tl := pyLower t
          let timeLimit := if tl = "none" then RekeyVal.null else RekeyVal.str tl
          .ok (storeIfAbsent st option (.rekey byteLimit timeLimit), rest2)
      | [] =>
          .ok (storeIfAbsent st option (.rekey byteLimit .unspecified), [])

/- ### Percent expansion (`SSHConfig._expand_val`), translated from the
`re.finditer` scan: at each percent sign the following character is looked
up in `_tokens`; a percent consumed as a token character is skipped by the
`idx < last_idx` test, which this recursion reproduces. -/

def expand_val (tokens : Tokens) : List Char → Except ConfigError (List Char)
  | [] => .ok []
  | ['%'] => .error (.bare "Invalid token substitution")
  | '%' :: c :: rest =>
      match alGet tokens c with
      | some s =>
          match expand_val tokens rest with
          | .ok tail => .ok (s.data ++ tail)
          | .error e => .error e
      | none =>
          if c = 'd' then .error (.bare "Home directory is not available")
          else if c = 'i' then .error (.bare "User id not available")
          else .error (.bare ("Invalid token substitution: " ++ String.mk [c]))
  | c :: rest =>
      match expand_val tokens rest with
      | .ok tail => .ok (c :: tail)
      | .error e => .error e

/-- `_expand_val` on a `String`. -/
def expandStr (tokens : Tokens) (s : String) : Except ConfigError String :=
  (expand_val tokens s.data).map String.mk

/- ### Client-variant pieces (`SSHClientConfig`). -/

/-- `SSHClientConfig._match_val`. -/
def match_val (ctx : ClientCtx) (opts : Options) (m : String) : Option String :=
  if m = "host" then
    match alGet opts "Hostname" with
    | some (.str s) => some s
    | some _ => none
    | none => some ctx.origHost
  else if m = "originalhost" then some ctx.origHost
  else if m = "localuser" then some ctx.localUser
  else if m = "user" then
    match alGet opts "User" with
    | some (.str s) => some s
    | some _ => none
    | none => some ctx.localUser
  else none

/-- `SSHConfig._match`: iterate the condition words, ANDing conditions;
the first failing condition clears the remaining arguments and stops. -/
def matchStep (ex : Externals) (ctx : ClientCtx) : ConfigState → List String → HResult
  | st, [] => .ok (st, [])
  | st, a :: rest =>
      let m := pyLower a
      if m = "all" then matchStep ex ctx { st with matching := true } rest
      else
        let mv := match_val ctx st.options m
        if m ≠ "exec" ∧ mv = none then .error (errAt st "Invalid match condition")
        else if m = "exec" then
          match rest with
          | [] => .error (errAt st ("Missing " ++ m ++ " match pattern"))
          | cmd :: rest2 =>
              let st2 := { st with matching := ex.exec cmd }
              if st2.matching then matchStep ex ctx st2 rest2 else .ok (st2, [])
        else if m = "address" ∨ m = "localaddress" then
          match rest with
          | [] => .error (errAt st ("Missing " ++ m ++ " match pattern"))
          | pat :: rest2 =>
              match mv with
              | some v =>
                  let st2 := { st with matching := ex.addrMatch pat v }
                  if st2.matching then matchStep ex ctx st2 rest2 else .ok (st2, [])
              | none => .error (errAt st "Invalid match condition")
        else
          match rest with
          | [] => .error (errAt st ("Missing " ++ m ++ " match pattern"))
          | pat :: rest2 =>
              match mv with
              | some v =>
                  let st2 := { st with matching := ex.wildMatch pat v }
                  if st2.matching then matchStep ex ctx st2 rest2 else .ok (st2, [])
              | none => .error (errAt st "Invalid match condition")

/-- `SSHClientConfig._match_host`: recompute the matching flag from the
comma-joined pattern list against the original host. -/
def match_host (ex : Externals) (ctx : ClientCtx) (st : ConfigState)
    (_option : String) (args : List String) : HResult :=
  let pattern := String.intercalate "," args
  .ok ({ st with matching := ex.wildMatch pattern ctx.origHost }, [])

/-- `SSHClientConfig._set_hostname`: expanded eagerly at directive time,
with the pre-expansion hostname registered as the `h` token.  The source's
`self._options.get(option, self._orig_host)` sits under the
`option not in self._options` guard, so it always yields `_orig_host`. -/
def set_hostname (ctx : ClientCtx) (st : ConfigState) (option : String)
    (args : List String) : HResult :=
  match args with
  | [] => .error (.bare "pop from empty list")
  | value :: rest =>
      if (alGet st.options option).isSome then .ok (st, rest)
      else
        let toks := alSet st.tokens 'h' ctx.origHost
        match expandStr toks value with
        | .ok ev =>
            .ok ({ st with tokens := toks,
                           options := alSet st.options option (.str ev) }, rest)
        | .error e => .error e

/-- `SSHClientConfig._set_request_tty`. -/
def set_request_tty (st : ConfigState) (option : String) (args : List String) : HResult :=
  match args with
  | [] => .error (.bare "pop from empty list")
  | valueStr :: rest =>
      let v := pyLower valueStr
      if v = "yes" ∨ v = "true" then .ok (storeIfAbsent st option (.bool true), rest)
      else if v = "no" ∨ v = "false" then .ok (storeIfAbsent st option (.bool false), rest)
      else if v ≠ "force" ∧ v ≠ "auto" then
        .error (errAt st ("Invalid " ++ option ++ " value: " ++ v))
      else .ok (storeIfAbsent st option (.str v), rest)

/-- `SSHClientConfig._set_tokens`: the full token set built after the
directive pass, in the source's update order. -/
def set_tokens (ex : Externals) (ctx : ClientCtx) (st : ConfigState) : ConfigState :=
  let localHost := ex.localHost
  let shortLocalHost :=
    match localHost.data.findIdx? (· = '.') with
    | none => localHost
    | some i => String.mk (localHost.data.take i)
  let host := match alGet st.options "Hostname" with
    | some (.str s) => s
    | _ => ctx.origHost
  let port := match alGet st.options "Port" with
    | some (.int n) => toString n
    | _ => toString ex.defaultPort
  let user := match alGet st.options "User" with
    | some (.str s) => if s = "" then ctx.localUser else s
    | _ => ctx.localUser
  let connHash := ex.sha1hex (localHost ++ host ++ port ++ user)
  let toks := st.tokens
  let toks := alSet toks 'C' connHash
  let toks := alSet toks 'h' host
  let toks := alSet toks 'L' shortLocalHost
  let toks := alSet toks 'l' localHost
  let toks := alSet toks 'n' ctx.origHost
  let toks := alSet toks 'p' port
  let toks := alSet toks 'r' user
  let toks := alSet toks 'u' ctx.localUser
  let toks := match ex.home with | some h => alSet toks 'd' h | none => toks
  let toks := match ex.uid with | some u => alSet toks 'i' (toString u) | none => toks
  { st with tokens := toks }

/- ### Directive engine (`SSHConfig.parse` and the client registry). -/

/-- Tag for the handler bound to an option in the `_handlers` table. -/
inductive HandlerKind where
  | hostKind | matchKind | includeKind
  | boolKind | intKind | stringKind | appendStringKind
  | stringListKind | appendStringListKind
  | addressFamilyKind | rekeyKind | hostnameKind | requestTTYKind
deriving Repr, DecidableEq

/-- `SSHClientConfig._handlers`: lowercased keyword to canonical display
name and handler, in source order. -/
def clientHandlerTable : List (String × String × HandlerKind) :=
  [("host",                            ("Host", .hostKind)),
   ("match",                           ("Match", .matchKind)),
   ("include",                         ("Include", .includeKind)),
   ("addressfamily",                   ("AddressFamily", .addressFamilyKind)),
   ("bindaddress",                     ("BindAddress", .stringKind)),
   ("casignaturealgorithms",           ("CASignatureAlgorithms", .stringKind)),
   ("certificatefile",                 ("CertificateFile", .appendStringKind)),
   ("challengeresponseauthentication", ("ChallengeResponseAuthentication", .boolKind)),
   ("ciphers",                         ("Ciphers", .stringKind)),
   ("compression",                     ("Compression", .boolKind)),
   ("connecttimeout",                  ("ConnectTimeout", .intKind)),
   ("enablesshkeysign",                ("EnableSSHKeySign", .boolKind)),
   ("forwardagent",                    ("ForwardAgent", .boolKind)),
   ("forwardx11trusted",               ("ForwardX11Trusted", .boolKind)),
   ("globalknownhostsfile",            ("GlobalKnownHostsFile", .stringListKind)),
   ("gssapiauthentication",            ("GSSAPIAuthentication", .boolKind)),
   ("gssapidelegatecredentials",       ("GSSAPIDelegateCredentials", .boolKind)),
   ("gssapikeyexchange",               ("GSSAPIKeyExchange", .boolKind)),
   ("hostbasedauthentication",         ("HostbasedAuthentication", .boolKind)),
   ("hostkeyalgorithms",               ("HostKeyAlgorithms", .stringKind)),
   ("hostname",                        ("Hostname", .hostnameKind)),
   ("hostkeyalias",                    ("HostKeyAlias", .stringKind)),
   ("identitiesonly",                  ("IdentitiesOnly", .boolKind)),
   ("identityagent",                   ("IdentityAgent", .stringKind)),
   ("identityfile",                    ("IdentityFile", .appendStringKind)),
   ("kbdinteractiveauthentication",    ("KbdInteractiveAuthentication", .boolKind)),
   ("kexalgorithms",                   ("KexAlgorithms", .stringKind)),
   ("macs",                            ("MACs", .stringKind)),
   ("passwordauthentication",          ("PasswordAuthentication", .boolKind)),
   ("pkcs11provider",                  ("PKCS11Provider", .stringKind)),
   ("preferredauthentications",        ("PreferredAuthentications", .stringKind)),
   ("port",                            ("Port", .intKind)),
   ("proxycommand",                    ("ProxyCommand", .stringListKind)),
   ("proxyjump",                       ("ProxyJump", .stringKind)),
   ("pubkeyauthentication",            ("PubkeyAuthentication", .boolKind)),
   ("rekeylimit",                      ("RekeyLimit", .rekeyKind)),
   ("remotecommand",                   ("RemoteCommand", .stringKind)),
   ("requesttty",                      ("RequestTTY", .requestTTYKind)),
   ("sendenv",                         ("SendEnv", .appendStringListKind)),
   ("serveralivecountmax",             ("ServerAliveCountMax", .intKind)),
   ("serveraliveinterval",             ("ServerAliveInterval", .intKind)),
   ("setenv",                          ("SetEnv", .appendStringListKind)),
   ("tcpkeepalive",                    ("TCPKeepAlive", .boolKind)),
   ("user",                            ("User", .stringKind)),
   ("userknownhostsfile",              ("UserKnownHostsFile", .stringListKind))]

/-- `SSHClientConfig._conditionals`. -/
def clientConditionals : List String := ["host", "match"]

/-- `SSHClientConfig._no_split`. -/
def clientNoSplit : List String := ["remotecommand"]

/-- `SSHClientConfig._percent_expand` (a Python set; iterated here in the
source listing's order). -/
def clientPercentExpand : List String :=
  ["CertificateFile", "IdentityAgent", "IdentityFile", "ProxyCommand", "RemoteCommand"]

/-- Outcome of the purely line-local part of the parse loop: stripping,
comment/blank skipping, word splitting, the three `=` spellings, and the
no-split rewrite, ending at the `_handlers` lookup. -/
inductive LineForm where
  | blank
  | badLex (msg : String)
  | popEmpty
  | unknown (loption : String)
  | directive (loption option : String) (kind : HandlerKind) (args : List String)
deriving Repr, DecidableEq

/-- The `keyword [=] args` normalization of `SSHConfig.parse`
(lines 319-334 of the source). -/
def analyzeLine (rawLine : String) : LineForm :=
  let line := pyStrip rawLine
  if line = "" ∨ startsWithCh line '#' then .blank
  else
    match shlexSplit line with
    | .error msg => .badLex msg
    | .ok [] => .popEmpty
    | .ok (option0 :: args1) =>
        let p : String × List String :=
          if endsWithCh option0 '=' then (option0.dropRight 1, args1)
          else
            match splitFirstEq option0 with
            | some (o, a) => (o, a :: args1)
            | none =>
                match args1 with
                | a :: rest =>
                    if a = "=" then (option0, rest)
                    else if startsWithCh a '=' then (option0, a.drop 1 :: rest)
                    else (option0, args1)
                | [] => (option0, args1)
        let loption := pyLower p.1
        let args2 := if loption ∈ clientNoSplit
                     then [pyStrip (line.drop loption.length)]
                     else p.2
        match alGet clientHandlerTable loption with
        | none => .unknown loption
        | some (option, kind) => .directive loption option kind args2

/-- The `loption` the engine computes for a line, when the line survives
stripping and word splitting (used to state skip properties). -/
def lineOption (rawLine : String) : Option String :=
  match analyzeLine rawLine with
  | .unknown lo => some lo
  | .directive lo _ _ _ => some lo
  | _ => none

/-- `SSHConfig._include`: glob-expand each pattern (the `Path` anchoring
and `glob` call are the injected `Externals.glob`), recursively parse each
matched file through `parseCb`, then restore only `self._path` and clear
the arguments. -/
def include_dir (ex : Externals)
    (parseCb : ConfigState → String → Except ConfigError ConfigState)
    (st : ConfigState) (args : List String) : HResult := do
  let oldPath := st.path
  let st ← args.foldlM (fun st pattern =>
    (ex.glob pattern).foldlM (fun st p => parseCb st p) st) st
  .ok ({ st with path := oldPath }, [])

/-- Dispatch to the registered handler for a non-`Include` kind. -/
def applyHandler (ex : Externals) (ctx : ClientCtx) (kind : HandlerKind)
    (st : ConfigState) (option : String) (args : List String) : HResult :=
  match kind with
  | .hostKind => match_host ex ctx st option args
  | .matchKind => matchStep ex ctx st args
  | .includeKind => .error (.bare "include dispatched outside parse")
  | .boolKind => set_bool st option args
  | .intKind => set_int st option args
  | .stringKind => set_string st option args
  | .appendStringKind => append_string st option args
  | .stringListKind => set_string_list st option args
  | .appendStringListKind => append_string_list st option args
  | .addressFamilyKind => set_address_family st option args
  | .rekeyKind => set_rekey_limits st option args
  | .hostnameKind => set_hostname ctx st option args
  | .requestTTYKind => set_request_tty st option args

/-- The `if args: self._error('Extra data at end: ...')` check after a
handler returns. -/
def trailCheck (st : ConfigState) (rest : List String) : Except ConfigError ConfigState :=
  if rest.isEmpty then .ok st
  else .error (errAt st ("Extra data at end: " ++ String.intercalate " " rest))

/-- One iteration of the `for line in file` loop of `SSHConfig.parse`:
bump the line counter, normalize the line, skip while not matching unless
the keyword is conditional, look up the handler, check for a missing
value, dispatch, and check for trailing data.  `parseCb` is the recursive
`parse` used by `Include`. -/
def processLine (ex : Externals) (ctx : ClientCtx)
    (parseCb : ConfigState → String → Except ConfigError ConfigState)
    (st0 : ConfigState) (rawLine : String) : Except ConfigError ConfigState :=
  let st := { st0 with lineNo := st0.lineNo + 1 }
  match analyzeLine rawLine with
  | .blank => .ok st
  | .badLex msg => .error (errAt st msg)
  | .popEmpty => .error (.bare "pop from empty list")
  | .unknown loption =>
      if ¬ st.matching ∧ loption ∉ clientConditionals then .ok st
      else .ok st
  | .directive loption option kind args =>
      if ¬ st.matching ∧ loption ∉ clientConditionals then .ok st
      else if args.isEmpty then .error (errAt st ("Missing " ++ option ++ " value"))
      else
        match kind with
        | .includeKind =>
            match include_dir ex parseCb st args with
            | .ok (st', rest) => trailCheck st' rest
            | .error e => .error e
        | _ =>
            match applyHandler ex ctx kind st option args with
            | .ok (st', rest) => trailCheck st' rest
            | .error e => .error e

/-- The body of the `for line in file` loop over a whole file. -/
def processLines (ex : Externals) (ctx : ClientCtx)
    (parseCb : ConfigState → String → Except ConfigError ConfigState)
    (st : ConfigState) (lines : List String) : Except ConfigError ConfigState :=
  lines.foldlM (processLine ex ctx parseCb) st

/-- The in-memory file system handed to `parse` (path to lines). -/
abbrev FileSys := List (String × List String)

/-- `_set_tokens` followed by the percent-expansion loop at the end of
`SSHConfig.parse` (source lines 352-365). -/
def expandList (tokens : Tokens) : List String → Except ConfigError (List String)
  | [] => .ok []
  | x :: xs =>
      match expandStr tokens x with
      | .ok y =>
          match expandList tokens xs with
          | .ok ys => .ok (y :: ys)
          | .error e => .error e
      | .error e => .error e

def expandValue (tokens : Tokens) : ConfigValue → Except ConfigError ConfigValue
  | .list xs =>
      match expandList tokens xs with
      | .ok ys => .ok (.list ys)
      | .error e => .error e
  | .str s =>
      match expandStr tokens s with
      | .ok t => .ok (.str t)
      | .error e => .error e
  | v => .ok v

def expandStep (st : ConfigState) : Except ConfigError ConfigState :=
  clientPercentExpand.foldlM (fun st option =>
    match alGet st.options option with
    | none => .ok st
    | some v =>
        match expandValue st.tokens v with
        | .ok v2 => .ok { st with options := alSet st.options option v2 }
        | .error e => .error e) st

/-- `SSHConfig.parse`: reset the per-file state (`_path`, `_line_no`,
`_matching`, `_tokens`), run the line loop, then build the token set and
percent-expand the allowlisted options.  The fuel bounds the `Include`
recursion, which the source leaves unbounded. -/
def parseFile (ex : Externals) (ctx : ClientCtx) (fs : FileSys) :
    Nat → ConfigState → String → Except ConfigError ConfigState
  | 0, _, _ => .error (.bare "recursion limit exceeded")
  | fuel + 1, st, path =>
      match alGet fs path with
      | none => .error (.bare ("No such file: " ++ path))
      | some lines =>
          let st1 := { st with path := path, lineNo := 0, matching := true,
                               tokens := [('%', "%")] }
          match processLines ex ctx (parseFile ex ctx fs fuel) st1 lines with
          | .ok st2 => expandStep (set_tokens ex ctx st2)
          | .error e => .error e

/-- `SSHClientConfig.__init__` seeding: copy the prior options, then
pre-seed `User` / `Port` from explicit overrides when given. -/
def clientSeed (lastOptions : Options) (user : Option String) (port : Option Int) : Options :=
  let o := lastOptions
  let o := match user with | some u => alSet o "User" (.str u) | none => o
  match port with | some p => alSet o "Port" (.int p) | none => o

/-- The state an `SSHConfig` starts from (`__init__`): `Path()`, line 0,
matching, seeded options, empty token map. -/
def initState (opts : Options) : ConfigState :=
  { path := ".", lineNo := 0, matching := true, options := opts, tokens := [] }

/-- `SSHConfig.load` for the client variant over an explicit path list. -/
def loadClient (ex : Externals) (ctx : ClientCtx) (fs : FileSys) (fuel : Nat)
    (lastOptions : Options) (user : Option String) (port : Option Int)
    (paths : List String) : Except ConfigError ConfigState :=
  paths.foldlM (fun st p => parseFile ex ctx fs fuel st p)
    (initState (clientSeed lastOptions user port))

/- ### Concrete fixtures used in scenario conjuncts, counterexamples and
witnesses. -/

/-- A concrete instantiation of the external collaborators. -/
def exDemo : Externals :=
  { wildMatch := fun pat v => pat = v
  , addrMatch := fun _ _ => false
  , exec := fun _ => false
  , glob := fun p => if p = "sub" then ["sub"] else if p = "i" then ["i"] else []
  , localHost := "laptop.example.org"
  , home := some "/home/alice"
  , uid := some 1000
  , sha1hex := fun _ => "cafebabe"
  , defaultPort := 22 }

/-- Client context: local user `lu`, target host `example.com`. -/
def ctxDemo : ClientCtx := { localUser := "lu", origHost := "example.com" }

/-- A trivial recursion callback for statements about a single line. -/
def cbDemo : ConfigState → String → Except ConfigError ConfigState := fun st _ => .ok st

/-- Main file including `sub` between two `IdentityFile` directives. -/
def fsIncludeOrder : FileSys :=
  [("main", ["IdentityFile a", "Include sub", "IdentityFile d"]),
   ("sub", ["IdentityFile b", "IdentityFile c"])]

/-- Outer file `o` whose physical line 2 is malformed; the Include at
line 1 pulls in the three-line file `i`. -/
def fsLineLeak : FileSys :=
  [("o", ["Include i", "Compression maybe"]),
   ("i", ["Port 2222", "User u", "ForwardAgent yes"])]

/-- Externals whose wildcard matcher rejects exactly the pattern `x`. -/
def exNoMatch : Externals := { exDemo with wildMatch := fun pat _ => pat ≠ "x" }

/-- Outer file `o` whose included file `i` ends in a failing `Host`. -/
def fsMatchLeak : FileSys :=
  [("o", ["Include i", "Port 2222"]),
   ("i", ["Host x"])]

/-- `f1` stores a literal `%%p` in a percent-expanded option; `f2` is an
empty second configuration file. -/
def fsTwoPass : FileSys := [("f1", ["IdentityFile %%p"]), ("f2", [])]

/-- A file whose second line carries a malformed boolean. -/
def fsBadBool : FileSys :=
  [("badf", ["ForwardAgent yes", "Compression maybe"]), ("otherf", [])]

/- ### Basic lemmas about the dictionary model. -/

theorem alGet_alSet_self {α β : Type} [DecidableEq α] (l : List (α × β)) (k : α) (v : β) :
    alGet (alSet l k v) k = some v := by
  induction l with
  | nil => simp [alGet, alSet]
  | cons hd tl ih =>
      obtain ⟨k0, v0⟩ := hd
      by_cases h : k0 = k
      · simp [alSet, h, alGet]
      · simp [alSet, h, alGet, ih]

theorem alGet_alSet_ne {α β : Type} [DecidableEq α] (l : List (α × β)) (k k' : α) (v : β)
    (h : k ≠ k') : alGet (alSet l k v) k' = alGet l k' := by
  induction l with
  | nil => simp [alGet, alSet, h]
  | cons hd tl ih =>
      obtain ⟨k0, v0⟩ := hd
      by_cases h0 : k0 = k
      · subst h0; simp [alSet, alGet, h]
      · simp [alSet, h0, alGet, ih]

theorem storeIfAbsent_present {st : ConfigState} {name : String} {v : ConfigValue}
    (w : ConfigValue) (h : alGet st.options name = some v) :
    storeIfAbsent st name w = st := by
  simp [storeIfAbsent, h]

theorem storeIfAbsent_absent {st : ConfigState} {name : String} (w : ConfigValue)
    (h : alGet st.options name = none) :
    storeIfAbsent st name w = { st with options := alSet st.options name w } := by
  simp [storeIfAbsent, h]

/- Per-handler facts: when the option already has a value, a successful
second invocation leaves the state untouched. -/

theorem set_bool_present {st : ConfigState} {name : String} {v : ConfigValue}
    {args rest : List String} {st' : ConfigState}
    (hp : alGet st.options name = some v)
    (h : set_bool st name args = .ok (st', rest)) : st' = st := by
  match args with
  | [] => exact Except.noConfusion h
  | a :: r =>
      simp only [set_bool, storeIfAbsent_present _ hp] at h
      split at h
      · simp only [Except.ok.injEq, Prod.mk.injEq] at h
        exact h.1.symm
      · split at h
        · simp only [Except.ok.injEq, Prod.mk.injEq] at h
          exact h.1.symm
        · exact Except.noConfusion h

theorem set_int_present {st : ConfigState} {name : String} {v : ConfigValue}
    {args rest : List String} {st' : ConfigState}
    (hp : alGet st.options name = some v)
    (h : set_int st name args = .ok (st', rest)) : st' = st := by
  match args with
  | [] => exact Except.noConfusion h
  | a :: r =>
      simp only [set_int, storeIfAbsent_present _ hp] at h
      split at h
      · simp only [Except.ok.injEq, Prod.mk.injEq] at h
        exact h.1.symm
      · exact Except.noConfusion h

theorem set_string_present {st : ConfigState} {name : String} {v : ConfigValue}
    {args rest : List String} {st' : ConfigState}
    (hp : alGet st.options name = some v)
    (h : set_string st name args = .ok (st', rest)) : st' = st := by
  match args with
  | [] => exact Except.noConfusion h
  | a :: r =>
      simp only [set_string, storeIfAbsent_present _ hp, Except.ok.injEq,
                 Prod.mk.injEq] at h
      exact h.1.symm

theorem set_address_family_present {st : ConfigState} {name : String} {v : ConfigValue}
    {args rest : List String} {st' : ConfigState}
    (hp : alGet st.options name = some v)
    (h : set_address_family st name args = .ok (st', rest)) : st' = st := by
  match args with
  | [] => exact Except.noConfusion h
  | a :: r =>
      simp only [set_address_family, storeIfAbsent_present _ hp] at h
      split at h
      · simp only [Except.ok.injEq, Prod.mk.injEq] at h
        exact h.1.symm
      · split at h
        · simp only [Except.ok.injEq, Prod.mk.injEq] at h
          exact h.1.symm
        · split at h
          · simp only [Except.ok.injEq, Prod.mk.injEq] at h
            exact h.1.symm
          · exact Except.noConfusion h

theorem set_rekey_limits_present {st : ConfigState} {name : String} {v : ConfigValue}
    {args rest : List String} {st' : ConfigState}
    (hp : alGet st.options name = some v)
    (h : set_rekey_limits st name args = .ok (st', rest)) : st' = st := by
  match args with
  | [] => exact Except.noConfusion h
  | a :: r =>
      simp only [set_rekey_limits, storeIfAbsent_present _ hp] at h
      split at h
      · simp only [Except.ok.injEq, Prod.mk.injEq] at h
        exact h.1.symm
      · simp only [Except.ok.injEq, Prod.mk.injEq] at h
        exact h.1.symm

theorem set_string_list_present {st : ConfigState} {name : String} {v : ConfigValue}
    {args rest : List String} {st' : ConfigState}
    (hp : alGet st.options name = some v)
    (h : set_string_list st name args = .ok (st', rest)) : st' = st := by
  simp only [set_string_list, storeIfAbsent_present _ hp, Except.ok.injEq,
             Prod.mk.injEq] at h
  exact h.1.symm

/- ### Claim theorems. -/

/-- C1: for every scalar (non-list) option — those handled by the bool,
int, string, address-family, rekey-limit and whole-line string-list
setters — once the canonical option name already has a value, a further
successful invocation of the setter leaves the options map unchanged, so
the second directive's value is never observed; concretely, two `Port`
directives in one pass leave the first value in the map. -/
theorem first_wins_scalar (st : ConfigState) (name : String) (v : ConfigValue)
    (hp : alGet st.options name = some v) :
    (∀ args st' rest, set_bool st name args = .ok (st', rest) → st'.options = st.options)
  ∧ (∀ args st' rest, set_int st name args = .ok (st', rest) → st'.options = st.options)
  ∧ (∀ args st' rest, set_string st name args = .ok (st', rest) → st'.options = st.options)
  ∧ (∀ args st' rest, set_address_family st name args = .ok (st', rest) → st'.options = st.options)
  ∧ (∀ args st' rest, set_rekey_limits st name args = .ok (st', rest) → st'.options = st.options)
  ∧ (∀ args st' rest, set_string_list st name args = .ok (st', rest) → st'.options = st.options)
  ∧ (processLines exDemo ctxDemo cbDemo (initState []) ["Port 1111", "Port 2222"]).map
      (fun s => alGet s.options "Port") = .ok (some (.int 1111)) := by
  refine ⟨?_, ?_, ?_, ?_, ?_, ?_, by rfl⟩
  · intro args st' rest h; rw [set_bool_present hp h]
  · intro args st' rest h; rw [set_int_present hp h]
  · intro args st' rest h; rw [set_string_present hp h]
  · intro args st' rest h; rw [set_address_family_present hp h]
  · intro args st' rest h; rw [set_rekey_limits_present hp h]
  · intro args st' rest h; rw [set_string_list_present hp h]

/-- Witness for C1 at a concrete state holding `Port = 22`. -/
theorem first_wins_scalar_witness :
    alGet (ConfigState.mk "." 0 true [("Port", .int 22)] []).options "Port" = some (.int 22)
  ∧ (∀ args st' rest,
      set_int (ConfigState.mk "." 0 true [("Port", .int 22)] []) "Port" args = .ok (st', rest) →
      st'.options = (ConfigState.mk "." 0 true [("Port", .int 22)] []).options) :=
  ⟨by rfl,
   (first_wins_scalar (ConfigState.mk "." 0 true [("Port", .int 22)] [])
      "Port" (.int 22) (by rfl)).2.1⟩

/-- N list-appending directives, each carrying a single argument, applied
in processing order: one `_append_string` invocation per directive. -/
def appendRun (st : ConfigState) (name : String) : List String → Except ConfigError ConfigState
  | [] => .ok st
  | v :: vs =>
      match append_string st name [v] with
      | .ok (st', _) => appendRun st' name vs
      | .error e => .error e

theorem appendRun_present (name : String) (vs : List String)
    (hnn : ∀ v ∈ vs, pyLower v ≠ "none") :
    ∀ (st : ConfigState) (xs : List String),
      alGet st.options name = some (.list xs) →
      ∃ st', appendRun st name vs = .ok st' ∧
        alGet st'.options name = some (.list (xs ++ vs)) := by
  induction vs with
  | nil => intro st xs hx; exact ⟨st, rfl, by simpa using hx⟩
  | cons v vs ih =>
      intro st xs hx
      have hv : pyLower v ≠ "none" := hnn v (List.mem_cons_self v vs)
      have hstep : append_string st name [v] =
          .ok ({ st with options := alSet st.options name (.list (xs ++ [v])) }, []) := by
        simp [append_string, hv, hx]
      obtain ⟨st', h1, h2⟩ := ih (fun w hw => hnn w (List.mem_cons_of_mem v hw))
        { st with options := alSet st.options name (.list (xs ++ [v])) }
        (xs ++ [v]) (by simp [alGet_alSet_self])
      refine ⟨st', ?_, ?_⟩
      · simp only [appendRun, hstep]; exact h1
      · simpa [List.append_assoc] using h2

/-- C2: for a list-appending option, N directives each supplying one
argument, none of which is the literal `none`, leave the option bound to
the list of exactly those N values in processing order; concretely, the
processing order includes files pulled in by `Include`, as in the
`fsIncludeOrder` scenario where values accumulate as
`a` (main), `b`, `c` (included), `d` (main again). -/
theorem list_append_accumulates (st : ConfigState) (name v : String) (vs : List String)
    (habs : alGet st.options name = none)
    (hnn : ∀ w ∈ (v :: vs), pyLower w ≠ "none") :
    (∃ st', appendRun st name (v :: vs) = .ok st' ∧
       alGet st'.options name = some (.list (v :: vs)))
  ∧ (loadClient exDemo ctxDemo fsIncludeOrder 5 [] none none ["main"]).map
      (fun s => alGet s.options "IdentityFile") = .ok (some (.list ["a", "b", "c", "d"])) := by
  constructor
  · have hv : pyLower v ≠ "none" := hnn v (List.mem_cons_self v vs)
    have hstep : append_string st name [v] =
        .ok ({ st with options := alSet st.options name (.list [v]) }, []) := by
      simp [append_string, hv, habs]
    obtain ⟨st', h1, h2⟩ := appendRun_present name vs
      (fun w hw => hnn w (List.mem_cons_of_mem v hw))
      { st with options := alSet st.options name (.list [v]) } [v]
      (by simp [alGet_alSet_self])
    exact ⟨st', by simp only [appendRun, hstep]; exact h1, by simpa using h2⟩
  · rfl

/-- Witness for C2: three `IdentityFile` values accumulate in order. -/
theorem list_append_accumulates_witness :
    alGet (initState []).options "IdentityFile" = none
  ∧ (∀ w ∈ (["k1", "k2", "k3"] : List String), pyLower w ≠ "none")
  ∧ ((∃ st', appendRun (initState []) "IdentityFile" ["k1", "k2", "k3"] = .ok st' ∧
        alGet st'.options "IdentityFile" = some (.list ["k1", "k2", "k3"]))
     ∧ (loadClient exDemo ctxDemo fsIncludeOrder 5 [] none none ["main"]).map
         (fun s => alGet s.options "IdentityFile") = .ok (some (.list ["a", "b", "c", "d"]))) :=
  ⟨rfl, by decide,
   list_append_accumulates (initState []) "IdentityFile" "k1" ["k2", "k3"] rfl (by decide)⟩

/-- C3: a list-appending directive whose argument is the literal `none`
(case-insensitively) stores an empty list when the option is unset, and
leaves the options map untouched when the option already has a value. -/
theorem append_none_sentinel (st : ConfigState) (name vStr : String) (rest : List String)
    (h : pyLower vStr = "none") :
    (alGet st.options name = none →
       append_string st name (vStr :: rest) =
         .ok ({ st with options := alSet st.options name (.list []) }, rest))
  ∧ (∀ w, alGet st.options name = some w →
       append_string st name (vStr :: rest) = .ok (st, rest)) := by
  constructor
  · intro habs
    simp [append_string, h, storeIfAbsent, habs]
  · intro w hw
    simp [append_string, h, storeIfAbsent_present _ hw]

/-- Witness for C3: `IdentityFile None` on an empty map stores `[]`; on a
map already holding a list it changes nothing. -/
theorem append_none_sentinel_witness :
    pyLower "None" = "none"
  ∧ ((alGet (initState []).options "IdentityFile" = none →
        append_string (initState []) "IdentityFile" ["None"] =
          .ok ({ initState [] with
                 options := alSet (initState []).options "IdentityFile" (.list []) }, []))
     ∧ (∀ w, alGet (initState []).options "IdentityFile" = some w →
          append_string (initState []) "IdentityFile" ["None"] = .ok (initState [], []))) :=
  ⟨by decide, append_none_sentinel (initState []) "IdentityFile" "None" [] (by decide)⟩

/-- C4: while the per-file matching flag is false, any line whose computed
keyword is not a conditional (`host`/`match`) leaves the engine state
unchanged apart from the line counter — no handler (and in particular no
`Include` recursion through the callback) runs; conditional directives
are still evaluated, e.g. `Match all` restores matching. -/
theorem skip_while_not_matching (ex : Externals) (ctx : ClientCtx)
    (cb : ConfigState → String → Except ConfigError ConfigState)
    (st : ConfigState) (hm : st.matching = false) :
    (∀ line o, lineOption line = some o → o ∉ clientConditionals →
       processLine ex ctx cb st line = .ok { st with lineNo := st.lineNo + 1 })
  ∧ processLine ex ctx cb st "Match all" =
      .ok { st with lineNo := st.lineNo + 1, matching := true } := by
  constructor
  · intro line o ho hoc
    unfold lineOption at ho
    cases han : analyzeLine line with
    | blank => rw [han] at ho; exact Option.noConfusion ho
    | badLex msg => rw [han] at ho; exact Option.noConfusion ho
    | popEmpty => rw [han] at ho; exact Option.noConfusion ho
    | unknown lo =>
        simp only [processLine, han]
        split <;> rfl
    | directive lo option kind args =>
        rw [han] at ho
        simp only [Option.some.injEq] at ho
        subst ho
        simp only [processLine, han, hm]
        simp [hoc]
  · have han : analyzeLine "Match all" =
        .directive "match" "Match" .matchKind ["all"] := by rfl
    simp only [processLine, han, hm]
    have hc : ("match" : String) ∈ clientConditionals := by decide
    simp only [hc, not_true_eq_false, and_false, if_false, not_false_eq_true]
    simp [applyHandler, matchStep, trailCheck, pyLower]
    rfl

/-- Witness for C4 at a concrete non-matching state: `Port 2222` is
skipped, `Match all` re-enables matching. -/
theorem skip_while_not_matching_witness :
    (ConfigState.mk "f" 0 false [] []).matching = false
  ∧ ((∀ line o, lineOption line = some o → o ∉ clientConditionals →
        processLine exDemo ctxDemo cbDemo (ConfigState.mk "f" 0 false [] []) line =
          .ok { ConfigState.mk "f" 0 false [] [] with lineNo := 1 })
     ∧ processLine exDemo ctxDemo cbDemo (ConfigState.mk "f" 0 false [] []) "Match all" =
         .ok { ConfigState.mk "f" 0 false [] [] with lineNo := 1, matching := true }) :=
  ⟨rfl, skip_while_not_matching exDemo ctxDemo cbDemo (ConfigState.mk "f" 0 false [] []) rfl⟩

/-- C5 counterexample: `_include` restores only `_path`; the line counter
and the matching flag leak from the included file.  In `fsLineLeak`, file
`o` has the malformed boolean on its physical line 2, but after the
Include of the three-line file `i` the error is reported at line 4, not
line 2.  In `fsMatchLeak`, the included file ends with a failing `Host x`,
and the outer file's subsequent `Port 2222` is silently skipped: the
returned state has no `Port` and `matching = false`. -/
theorem include_context_not_restored :
    parseFile exDemo ctxDemo fsLineLeak 5 (initState []) "o" =
      .error (.located "o" 4 "Invalid Compression boolean value: maybe")
  ∧ (parseFile exNoMatch ctxDemo fsMatchLeak 5 (initState []) "o").map
      (fun s => (alGet s.options "Port", s.matching)) = .ok (none, false) :=
  ⟨rfl, rfl⟩

/-- C5 amended: after an `Include` completes, only the outer file's path
is restored for resumption; the returned state is exactly the state left
behind by the recursive parses with the path put back, so the line counter
and matching flag carry over from the last included file. -/
theorem include_restores_path_only (ex : Externals)
    (cb : ConfigState → String → Except ConfigError ConfigState)
    (st : ConfigState) (args : List String) (st' : ConfigState) (rest : List String)
    (h : include_dir ex cb st args = .ok (st', rest)) :
    st'.path = st.path ∧ rest = [] ∧
    ∃ st2, args.foldlM (fun s pattern =>
        (ex.glob pattern).foldlM (fun s p => cb s p) s) st = .ok st2 ∧
      st' = { st2 with path := st.path } := by
  unfold include_dir at h
  cases hf : args.foldlM (fun s pattern =>
      (ex.glob pattern).foldlM (fun s p => cb s p) s) st with
  | ok st2 =>
      rw [hf] at h
      simp only [bind, Except.bind, Except.ok.injEq, Prod.mk.injEq] at h
      refine ⟨?_, h.2.symm, st2, rfl, h.1.symm⟩
      rw [← h.1]
  | error e =>
      rw [hf] at h
      exact Except.noConfusion h

/-- Witness for C5's amended theorem at a concrete `Include sub`. -/
theorem include_restores_path_only_witness :
    include_dir exDemo cbDemo (ConfigState.mk "o" 1 true [] []) ["sub"] =
      .ok (ConfigState.mk "o" 1 true [] [], [])
  ∧ ((ConfigState.mk "o" 1 true [] []).path = (ConfigState.mk "o" 1 true [] []).path
     ∧ ([] : List String) = []
     ∧ ∃ st2, (["sub"] : List String).foldlM (fun s pattern =>
           (exDemo.glob pattern).foldlM (fun s p => cbDemo s p) s)
           (ConfigState.mk "o" 1 true [] []) = .ok st2 ∧
         ConfigState.mk "o" 1 true [] [] = { st2 with path := "o" }) :=
  ⟨rfl, include_restores_path_only exDemo cbDemo
     (ConfigState.mk "o" 1 true [] []) ["sub"]
     (ConfigState.mk "o" 1 true [] []) [] rfl⟩

/-- C6 counterexample: percent expansion is not performed exactly once per
resolver invocation.  `f1` stores `IdentityFile %%p`; a single expansion
of the final directive-pass value would yield `%p`, but loading the chain
`[f1, f2]` re-expands at the end of `f2`'s parse as well, producing `22`
(the seeded port). -/
theorem double_expansion_across_files :
    (loadClient exDemo ctxDemo fsTwoPass 5 [] none (some 22) ["f1", "f2"]).map
      (fun s => alGet s.options "IdentityFile") = .ok (some (.list ["22"])) :=
  rfl

/-- C6 amended: expansion runs once at the end of each `parse()` call —
after each top-level file and after each included file — rewriting the
allowlisted values present at that moment; a single-file invocation
therefore expands exactly once (`%%p` becomes `%p`). -/
theorem expansion_after_each_file_pass (ex : Externals) (ctx : ClientCtx) (fs : FileSys)
    (fuel : Nat) (st : ConfigState) (path : String) (lines : List String)
    (hfs : alGet fs path = some lines) :
    parseFile ex ctx fs (fuel + 1) st path =
      (match processLines ex ctx (parseFile ex ctx fs fuel)
          { st with path := path, lineNo := 0, matching := true,
                    tokens := [('%', "%")] } lines with
       | .ok st2 => expandStep (set_tokens ex ctx st2)
       | .error e => .error e)
  ∧ (loadClient exDemo ctxDemo fsTwoPass 5 [] none (some 22) ["f1"]).map
      (fun s => alGet s.options "IdentityFile") = .ok (some (.list ["%p"])) := by
  refine ⟨?_, rfl⟩
  simp only [parseFile, hfs]

/-- Witness for C6's amended theorem at the `f1` file. -/
theorem expansion_after_each_file_pass_witness :
    alGet fsTwoPass "f1" = some ["IdentityFile %%p"]
  ∧ (parseFile exDemo ctxDemo fsTwoPass (4 + 1) (initState []) "f1" =
      (match processLines exDemo ctxDemo (parseFile exDemo ctxDemo fsTwoPass 4)
          { initState [] with path := "f1", lineNo := 0, matching := true,
                              tokens := [('%', "%")] } ["IdentityFile %%p"] with
       | .ok st2 => expandStep (set_tokens exDemo ctxDemo st2)
       | .error e => .error e)
     ∧ (loadClient exDemo ctxDemo fsTwoPass 5 [] none (some 22) ["f1"]).map
         (fun s => alGet s.options "IdentityFile") = .ok (some (.list ["%p"]))) :=
  ⟨rfl, expansion_after_each_file_pass exDemo ctxDemo fsTwoPass 4 (initState [])
     "f1" ["IdentityFile %%p"] rfl⟩

/-- C7: with fixed client context — target host `example.com`, user
`alice`, port 22, and no `Hostname` directive — the token set built by
`_set_tokens` makes percent expansion map `%h`, `%p`, `%r`, `%n` to
`example.com`, `22`, `alice`, `example.com`, map `%%` to a literal `%`,
raise the token-substitution error for every token outside the defined
set (such as `%z`), and raise it for a trailing bare percent. -/
theorem token_expansion_fixed_context (ex : Externals) (lu : String) (st : ConfigState)
    (htk : st.tokens = [('%', "%")])
    (hhn : alGet st.options "Hostname" = none)
    (husr : alGet st.options "User" = some (.str "alice"))
    (hprt : alGet st.options "Port" = some (.int 22)) :
    (expandStr (set_tokens ex ⟨lu, "example.com"⟩ st).tokens "%h" = .ok "example.com")
  ∧ (expandStr (set_tokens ex ⟨lu, "example.com"⟩ st).tokens "%p" = .ok "22")
  ∧ (expandStr (set_tokens ex ⟨lu, "example.com"⟩ st).tokens "%r" = .ok "alice")
  ∧ (expandStr (set_tokens ex ⟨lu, "example.com"⟩ st).tokens "%n" = .ok "example.com")
  ∧ (expandStr (set_tokens ex ⟨lu, "example.com"⟩ st).tokens "%%" = .ok "%")
  ∧ (∀ c : Char, c ∉ (['C', 'h', 'L', 'l', 'n', 'p', 'r', 'u', 'd', 'i', '%'] : List Char) →
       ∃ e, expandStr (set_tokens ex ⟨lu, "example.com"⟩ st).tokens (String.mk ['%', c]) =
         .error e)
  ∧ (expandStr (set_tokens ex ⟨lu, "example.com"⟩ st).tokens "x%" =
       .error (.bare "Invalid token substitution")) := by
  obtain ⟨wm, am, exe, gl, lh, ho, ui, sh, dp⟩ := ex
  have h22 : toString (22 : Int) = "22" := rfl
  refine ⟨?_, ?_, ?_, ?_, ?_, ?_, ?_⟩
  · rcases ho with _ | h1 <;> rcases ui with _ | u1 <;>
      simp [set_tokens, htk, hhn, husr, hprt, h22, alSet, alGet, expandStr, expand_val,
            Except.map]
  · rcases ho with _ | h1 <;> rcases ui with _ | u1 <;>
      simp [set_tokens, htk, hhn, husr, hprt, h22, alSet, alGet, expandStr, expand_val,
            Except.map]
  · rcases ho with _ | h1 <;> rcases ui with _ | u1 <;>
      simp [set_tokens, htk, hhn, husr, hprt, h22, alSet, alGet, expandStr, expand_val,
            Except.map]
  · rcases ho with _ | h1 <;> rcases ui with _ | u1 <;>
      simp [set_tokens, htk, hhn, husr, hprt, h22, alSet, alGet, expandStr, expand_val,
            Except.map]
  · rcases ho with _ | h1 <;> rcases ui with _ | u1 <;>
      simp [set_tokens, htk, hhn, husr, hprt, h22, alSet, alGet, expandStr, expand_val,
            Except.map]
  · intro c hc
    simp only [List.mem_cons, List.not_mem_nil, or_false, not_or] at hc
    obtain ⟨n1, n2, n3, n4, n5, n6, n7, n8, n9, n10, n11⟩ := hc
    rcases ho with _ | h1 <;> rcases ui with _ | u1 <;>
      · simp [set_tokens, htk, hhn, husr, hprt, h22, alSet, alGet, expandStr, expand_val,
              Except.map, Ne.symm n1, Ne.symm n2, Ne.symm n3, Ne.symm n4, Ne.symm n5,
              Ne.symm n6, Ne.symm n7, Ne.symm n8, Ne.symm n9, Ne.symm n10, Ne.symm n11,
              n9, n10]
  · rcases ho with _ | h1 <;> rcases ui with _ | u1 <;>
      simp [set_tokens, htk, hhn, husr, hprt, h22, alSet, alGet, expandStr, expand_val,
            Except.map]

/-- Witness for C7 at the concrete externals and the concrete state with
`User = alice`, `Port = 22`. -/
theorem token_expansion_fixed_context_witness :
    (ConfigState.mk "p" 0 true [("User", .str "alice"), ("Port", .int 22)]
       [('%', "%")]).tokens = [('%', "%")]
  ∧ alGet (ConfigState.mk "p" 0 true [("User", .str "alice"), ("Port", .int 22)]
       [('%', "%")]).options "Hostname" = none
  ∧ alGet (ConfigState.mk "p" 0 true [("User", .str "alice"), ("Port", .int 22)]
       [('%', "%")]).options "User" = some (.str "alice")
  ∧ alGet (ConfigState.mk "p" 0 true [("User", .str "alice"), ("Port", .int 22)]
       [('%', "%")]).options "Port" = some (.int 22)
  ∧ expandStr (set_tokens exDemo ⟨"lu", "example.com"⟩
       (ConfigState.mk "p" 0 true [("User", .str "alice"), ("Port", .int 22)]
         [('%', "%")])).tokens "%h" = .ok "example.com" :=
  ⟨rfl, rfl, rfl, rfl,
   (token_expansion_fixed_context exDemo "lu"
      (ConfigState.mk "p" 0 true [("User", .str "alice"), ("Port", .int 22)] [('%', "%")])
      rfl rfl rfl rfl).1⟩

/-- C8: a boolean directive maps `yes`/`true` to true and `no`/`false` to
false (case-insensitively, first-wins), and any other argument raises a
`ConfigParseError` carrying the current file path and the 1-based line
number; concretely, `Compression maybe` on line 2 of `badf` aborts the
file parse — and the whole load chain — with the located error, returning
no options map. -/
theorem bool_option_errors_with_location (st : ConfigState) (option a : String)
    (rest : List String) :
    (pyLower a = "yes" ∨ pyLower a = "true" →
       set_bool st option (a :: rest) = .ok (storeIfAbsent st option (.bool true), rest))
  ∧ (pyLower a = "no" ∨ pyLower a = "false" →
       set_bool st option (a :: rest) = .ok (storeIfAbsent st option (.bool false), rest))
  ∧ (¬(pyLower a = "yes" ∨ pyLower a = "true") →
     ¬(pyLower a = "no" ∨ pyLower a = "false") →
       set_bool st option (a :: rest) =
         .error (.located st.path st.lineNo
           ("Invalid " ++ option ++ " boolean value: " ++ pyLower a)))
  ∧ parseFile exDemo ctxDemo fsBadBool 5 (initState []) "badf" =
      .error (.located "badf" 2 "Invalid Compression boolean value: maybe")
  ∧ loadClient exDemo ctxDemo fsBadBool 5 [] none none ["badf", "otherf"] =
      .error (.located "badf" 2 "Invalid Compression boolean value: maybe") := by
  refine ⟨?_, ?_, ?_, rfl, rfl⟩
  · intro h; simp [set_bool, h]
  · intro h
    have h1 : ¬(pyLower a = "yes" ∨ pyLower a = "true") := by
      rcases h with h | h <;> simp [h]
    simp [set_bool, h1, h]
  · intro h1 h2; simp [set_bool, h1, h2, errAt]

/-- Witness for C8: `Compression maybe` at path `f`, line 7. -/
theorem bool_option_errors_with_location_witness :
    ¬(pyLower "maybe" = "yes" ∨ pyLower "maybe" = "true")
  ∧ ¬(pyLower "maybe" = "no" ∨ pyLower "maybe" = "false")
  ∧ set_bool (ConfigState.mk "f" 7 true [] []) "Compression" ["maybe"] =
      .error (.located "f" 7 "Invalid Compression boolean value: maybe") :=
  ⟨by decide, by decide,
   (bool_option_errors_with_location (ConfigState.mk "f" 7 true [] [])
      "Compression" "maybe" []).2.2.1 (by decide) (by decide)⟩

/-- C9: value validation happens before the first-wins check — when the
option already has a value, a later directive with a malformed boolean,
integer or address-family argument still raises the located
`ConfigParseError` (while a well-formed one would have been silently
discarded); at the parse-loop level, `Port abc` aborts even when `Port`
is already set. -/
theorem validation_before_first_wins (st : ConfigState) (name : String) (v : ConfigValue)
    (_hp : alGet st.options name = some v) :
    (∀ a rest, ¬(pyLower a = "yes" ∨ pyLower a = "true") →
       ¬(pyLower a = "no" ∨ pyLower a = "false") →
       set_bool st name (a :: rest) =
         .error (.located st.path st.lineNo
           ("Invalid " ++ name ++ " boolean value: " ++ pyLower a)))
  ∧ (∀ a rest, pyInt a = none →
       set_int st name (a :: rest) =
         .error (.located st.path st.lineNo
           ("Invalid " ++ name ++ " integer value: " ++ a)))
  ∧ (∀ a rest, pyLower a ≠ "any" → pyLower a ≠ "inet" → pyLower a ≠ "inet6" →
       set_address_family st name (a :: rest) =
         .error (.located st.path st.lineNo
           ("Invalid " ++ name ++ " value: " ++ pyLower a)))
  ∧ (∀ cb v2, alGet st.options "Port" = some v2 → st.matching = true →
       processLine exDemo ctxDemo cb st "Port abc" =
         .error (.located st.path (st.lineNo + 1) "Invalid Port integer value: abc")) := by
  refine ⟨?_, ?_, ?_, ?_⟩
  · intro a rest h1 h2; simp [set_bool, h1, h2, errAt]
  · intro a rest h; simp [set_int, h, errAt]
  · intro a rest h1 h2 h3; simp [set_address_family, h1, h2, h3, errAt]
  · intro cb v2 hv2 hm
    have han : analyzeLine "Port abc" = .directive "port" "Port" .intKind ["abc"] := rfl
    have habc : pyInt "abc" = none := rfl
    simp [processLine, han, hm, applyHandler, set_int, habc, errAt]

/-- Witness for C9 at a state where `Port` is already 22. -/
theorem validation_before_first_wins_witness :
    alGet (ConfigState.mk "f" 3 true [("Port", .int 22)] []).options "Port" =
      some (.int 22)
  ∧ pyInt "abc" = none
  ∧ set_int (ConfigState.mk "f" 3 true [("Port", .int 22)] []) "Port" ["abc"] =
      .error (.located "f" 3 "Invalid Port integer value: abc") :=
  ⟨rfl, rfl,
   (validation_before_first_wins (ConfigState.mk "f" 3 true [("Port", .int 22)] [])
      "Port" (.int 22) rfl).2.1 "abc" [] rfl⟩

/-- C10: `Hostname` is expanded eagerly while the token map holds only the
literal-percent and `h` entries, so a first `Hostname` directive whose
value uses any token other than `%h`/`%%` raises a `ConfigParseError`
even though the token (e.g. `%p`) is defined in the full token set built
by `_set_tokens` after the pass; `%h` itself expands to the original
requested host. -/
theorem hostname_eager_expansion (ex : Externals) (ctx : ClientCtx) (st : ConfigState)
    (htk : st.tokens = [('%', "%")])
    (habs : alGet st.options "Hostname" = none) :
    (∀ c : Char, c ≠ '%' → c ≠ 'h' →
       ∃ e, set_hostname ctx st "Hostname" [String.mk ['%', c]] = .error e)
  ∧ set_hostname ctx st "Hostname" ["%h"] =
      .ok ({ st with tokens := alSet st.tokens 'h' ctx.origHost,
                     options := alSet st.options "Hostname" (.str ctx.origHost) }, [])
  ∧ (∃ s, alGet (set_tokens ex ctx st).tokens 'p' = some s) := by
  refine ⟨?_, ?_, ?_⟩
  · intro c h1 h2
    have hget : alGet (alSet st.tokens 'h' ctx.origHost) c = none := by
      rw [htk]
      simp [alGet, alSet, Ne.symm h1, Ne.symm h2]
    simp only [set_hostname, habs, Option.isSome_none, Bool.false_eq_true, if_false,
               expandStr, expand_val, hget]
    by_cases hd : c = 'd'
    · simp [hd, Except.map]
    · by_cases hi : c = 'i'
      · simp [hd, hi, Except.map]
      · simp [hd, hi, Except.map]
  · simp only [set_hostname, habs, htk, Option.isSome_none, Bool.false_eq_true, if_false]
    simp [expandStr, expand_val, alGet, alSet, Except.map]
  · obtain ⟨wm, am, exe, gl, lh, ho, ui, sh, dp⟩ := ex
    rcases ho with _ | h1 <;> rcases ui with _ | u1 <;>
      · simp [set_tokens, htk, alSet, alGet]

/-- Witness for C10 at a concrete fresh-parse state with no `Hostname`. -/
theorem hostname_eager_expansion_witness :
    (ConfigState.mk "hf" 2 true [] [('%', "%")]).tokens = [('%', "%")]
  ∧ alGet (ConfigState.mk "hf" 2 true [] [('%', "%")]).options "Hostname" = none
  ∧ set_hostname ctxDemo (ConfigState.mk "hf" 2 true [] [('%', "%")]) "Hostname" ["%h"] =
      .ok ({ ConfigState.mk "hf" 2 true [] [('%', "%")] with
             tokens := alSet [('%', "%")] 'h' ctxDemo.origHost,
             options := alSet [] "Hostname" (.str ctxDemo.origHost) }, []) :=
  ⟨rfl, rfl,
   (hostname_eager_expansion exDemo ctxDemo
      (ConfigState.mk "hf" 2 true [] [('%', "%")]) rfl rfl).2.1⟩

end SSHConf


